import Mathlib

/-!
Shallow embedding of the hydraulic erosion engine of this repository
(the `ErosionSimulator` class and the erosion worker message handler).

Modelling conventions:
* JavaScript numbers are modelled as exact rationals (`ℚ`).  The spec
  declares floating-point bit-reproducibility a non-goal, so decimal
  literals of the source (`0.001`, `9.81`, ...) are taken at their exact
  rational value.
* `Math.sqrt` / `Math.pow` / `Math.atan·(180/π)` are not rational-valued,
  so the engine is parametrised by a record `MathOps` of those three
  primitives.  Theorems that depend on their values either hold for every
  choice of `MathOps`, or carry explicit hypotheses pinning the primitive
  at the (perfect-square) points where it is evaluated — hypotheses that
  are true of the real `Math.sqrt`.  `demoOps` is a computable instance
  that is exact on perfect squares; concrete runs below only evaluate the
  primitives at points where `demoOps` agrees with the real functions, or
  where the result provably does not influence the stated conclusion.
* `Math.random()` draws are passed in explicitly (droplet spawn
  coordinates, grain-distribution draws, the slope-map recompute draw).
* `Float32Array`s are modelled as total functions `ℕ → ℚ`; a write
  outside the guard regions of the source never happens (the source
  guards every write), and conditionally-allocated maps are `Option`s.
  Dereferencing an unallocated map (a JavaScript `TypeError`) makes the
  modelled operation return `none`.
-/

/-- Grid buffers (Float32Array in the source) as total maps from index to value. -/
def HMap : Type := ℕ → ℚ

/-- Pointwise functional update, modelling `arr[i] = v`. -/
def updF (f : HMap) (i : ℕ) (v : ℚ) : HMap := fun j => if j = i then v else f j

/-- The three non-rational math primitives used by the engine.
`atanDeg r` models `Math.atan(r) * (180 / Math.PI)` (only ever used to fill
the slope map, whose values feed back only through order comparisons). -/
structure MathOps where
  sqrt : ℚ → ℚ
  pow : ℚ → ℚ → ℚ
  atanDeg : ℚ → ℚ

/-- Concrete square-root instance used by the closed scenario runs: a finite
table.  Every entry at a perfect rational square (0, 1, 16/250000,
518400/250000, 562500/250000) is the exact value of `Math.sqrt` there.  The
remaining entries default to 0 and are never consulted by the scenarios. -/
def demoSqrt (q : ℚ) : ℚ :=
  if q = 0 then 0
  else if q = 1 then 1
  else if q = 16/250000 then 1/125
  else if q = 518400/250000 then 36/25
  else if q = 562500/250000 then 3/2
  else 0

/-- Concrete power instance for the closed scenario runs.  The entry at
`(25/36, 1/2)` is the exact `Math.pow` value; the entries at `(125, 1/2)`,
`(56/625, 3/2)` and `(6/5, 3/2)` are positive rational stand-ins for the
irrational `Math.pow` values there — the scenario conclusions stated below
depend on those quantities only through their sign, as the accompanying
`MathOps`-generic theorems make precise. -/
def demoPow (b e : ℚ) : ℚ :=
  if b = 125 ∧ e = 1/2 then 56/5
  else if b = 25/36 ∧ e = 1/2 then 5/6
  else if b = 56/625 ∧ e = 3/2 then 1/100
  else if b = 6/5 ∧ e = 3/2 then 13/10
  else 0

/-- Concrete instance of the math primitives (the `atanDeg` component is never
evaluated in the concrete scenarios below: they all disable talus formation). -/
def demoOps : MathOps := ⟨demoSqrt, demoPow, fun _ => 0⟩

/-- The hard-coded 256-entry permutation table of the constructor. -/
def permBase : List ℕ :=
  [151,160,137,91,90,15,131,13,201,95,96,53,194,233,7,225,140,36,103,30,69,142,8,99,37,240,21,10,23,
   190,6,148,247,120,234,75,0,26,197,62,94,252,219,203,117,35,11,32,57,177,33,88,237,149,56,87,174,20,125,136,171,168,
   68,175,74,165,71,134,139,48,27,166,77,146,158,231,83,111,229,122,60,211,133,230,220,105,92,41,55,46,245,40,244,
   102,143,54,65,25,63,161,1,216,80,73,209,76,132,187,208,89,18,169,200,196,135,130,116,188,159,86,164,100,109,198,173,186,
   3,64,52,217,226,250,124,123,5,202,38,147,118,126,255,82,85,212,207,206,59,227,47,16,58,17,182,189,28,42,
   223,183,170,213,119,248,152,2,44,154,163,70,221,153,101,155,167,43,172,9,129,22,39,253,19,98,108,110,79,113,224,232,178,185,
   112,104,218,246,97,228,251,34,242,193,238,210,144,12,191,179,162,241,81,51,145,235,249,14,239,107,
   49,192,214,31,181,199,106,157,184,84,204,176,115,121,50,45,127,4,150,254,138,236,205,93,222,114,67,29,24,72,243,141,128,195,78,66,215,61,156,180]

/-- The duplicated 512-entry table `this._p`: `_p[i] = permutation[i % 256]`
for every index the noise function reaches (all are < 512). -/
def permAt (i : ℕ) : ℕ := permBase.getD (i % 256) 0

/-- Smoothstep weight `_fade(t) = t³(t(6t−15)+10)`. -/
def fade (t : ℚ) : ℚ := t * t * t * (t * (t * 6 - 15) + 10)

/-- Linear interpolation `_lerp(t, a, b) = a + t(b − a)`. -/
def lerp (t a b : ℚ) : ℚ := a + t * (b - a)

/-- Corner gradient `_grad(hash, x, y)`.  `h = hash & 15` is a 4-bit hash, so
`h >> 4` is always `0` and the y-gradient is the constant 1. -/
def grad (hash : ℕ) (x y : ℚ) : ℚ :=
  let h := hash % 16
  let gradX : ℚ := 1 + (h % 8 : ℕ)
  let gradY : ℚ := 1 + (h / 16 : ℕ)
  (if 8 ≤ h then -gradX else gradX) * x + (if 8 ≤ h then -gradY else gradY) * y

/-- The 2D gradient-noise sample `_noise2D(x, y)`.  `Math.floor(x) & 255` is
modelled by the (always non-negative) `Int.emod` by 256. -/
def noise2D (x y : ℚ) : ℚ :=
  let X : ℕ := (⌊x⌋ % 256).toNat
  let Y : ℕ := (⌊y⌋ % 256).toNat
  let xf : ℚ := x - ⌊x⌋
  let yf : ℚ := y - ⌊y⌋
  let u := fade xf
  let v := fade yf
  let A := permAt X + Y
  let B := permAt (X + 1) + Y
  lerp v
    (lerp u (grad (permAt A) xf yf) (grad (permAt B) (xf - 1) yf))
    (lerp u (grad (permAt (A + 1)) xf (yf - 1)) (grad (permAt (B + 1)) (xf - 1) (yf - 1)))

/-- Four octaves of noise, amplitude halving and frequency doubling, as built
by `_initializeMicroDetailNoise` for one cell at scaled coordinates. -/
def noiseOctaves (nx ny : ℚ) : ℚ :=
  noise2D nx ny + noise2D (nx * 2) (ny * 2) * (1/2)
    + noise2D (nx * 4) (ny * 4) * (1/4) + noise2D (nx * 8) (ny * 8) * (1/8)

/-- The static micro-detail noise buffer written by
`_initializeMicroDetailNoise` (cell `(x, y)` gets the octave sum at
`(x·scale, y·scale)` times `microDetailStrength`). -/
def mkMicroDetailNoise (w h : ℕ) (scale strength : ℚ) : HMap :=
  fun i =>
    if i < w * h then noiseOctaves ((i % w : ℕ) * scale) ((i / w : ℕ) * scale) * strength
    else 0

/-- Per-grain carrying-capacity factors of `params.sedimentSizes` (the `size`
and `angleOfRepose` fields of the source record are never read by the
engine code, so only the `capacity` components are modelled). -/
structure SedSizes where
  veryFine : ℚ
  fine : ℚ
  medium : ℚ
  coarse : ℚ
  veryCoarse : ℚ
deriving DecidableEq

/-- A droplet's 5-bin grain-size distribution. -/
structure SedDist where
  veryFine : ℚ
  fine : ℚ
  medium : ℚ
  coarse : ℚ
  veryCoarse : ℚ
deriving DecidableEq

/-- The merged simulation parameters (`this.params` after `Object.assign`;
the model takes the merged record directly).  `talusAngleThreshold` and
`talusParticleSize` are never read by the engine code and are omitted. -/
structure Params where
  inertia : ℚ
  friction : ℚ
  sedimentCapacityFactor : ℚ
  depositionRate : ℚ
  evaporationRate : ℚ
  minVolume : ℚ
  initialVolume : ℚ
  initialSpeed : ℚ
  maxDropletLifetime : ℚ
  useMultiScale : Bool
  scales : List ℚ
  scaleWeights : List ℚ
  useSedimentSizes : Bool
  sedimentSizes : SedSizes
  useFlowAccumulation : Bool
  flowAccumulationFactor : ℚ
  useTemperature : Bool
  temperature : ℚ
  viscosityFactor : ℚ
  useMicroDetails : Bool
  microDetailScale : ℚ
  microDetailStrength : ℚ
  useTalusFormation : Bool
  talusFormationRate : ℚ
  talusStabilityFactor : ℚ
  talusErosionRate : ℚ
  talusDepositionRate : ℚ
  talusMaxHeight : ℚ
  talusMinSlope : ℚ
  talusMaxSlope : ℚ
deriving DecidableEq

/-- Droplet state (`this.droplets[i]`). -/
structure Droplet where
  x : ℚ
  y : ℚ
  dx : ℚ
  dy : ℚ
  speed : ℚ
  water : ℚ
  sediment : ℚ
  lifetime : ℕ
  alive : Bool
  sedimentDistribution : Option SedDist
deriving DecidableEq

/-- The `Math.random()` draws consumed by `_createDroplet` (two position
draws and the five grain-distribution draws). -/
structure DropletRand where
  rx : ℚ
  ry : ℚ
  d1 : ℚ
  d2 : ℚ
  d3 : ℚ
  d4 : ℚ
  d5 : ℚ

/-- The engine-owned grid buffers.  The height map is always allocated; the
five auxiliary maps are `Option`s because the constructor allocates them
only under their feature flags. -/
structure Maps where
  heightMap : HMap
  flowMap : Option HMap
  microDetailMap : Option HMap
  microDetailNoise : Option HMap
  talusMap : Option HMap
  slopeMap : Option HMap

/-- The whole `ErosionSimulator` instance state. -/
structure Engine where
  width : ℕ
  height : ℕ
  params : Params
  maps : Maps
  droplets : List Droplet
  dropletsActive : Bool

/-- Height map of an engine (`this.heightMap`). -/
def Engine.heightMap (e : Engine) : HMap := e.maps.heightMap

/-- Row-major index `toIndex(x, y) = y * width + x` for in-guard coordinates. -/
def toIndex (w : ℕ) (x y : ℤ) : ℕ := (y * w + x).toNat

/-- Bilinear interpolation `_bilinearInterp(heightMap, x, y)`: zero outside
the guard region, else the proximity-weighted blend of the 4 corners. -/
def bilinearInterp (w h : ℕ) (f : HMap) (x y : ℚ) : ℚ :=
  let cellX : ℤ := ⌊x⌋
  let cellY : ℤ := ⌊y⌋
  let offX : ℚ := x - cellX
  let offY : ℚ := y - cellY
  if cellX < 0 ∨ cellY < 0 ∨ (w : ℤ) - 1 ≤ cellX ∨ (h : ℤ) - 1 ≤ cellY then 0
  else
    f (toIndex w cellX cellY) * (1 - offX) * (1 - offY)
      + f (toIndex w (cellX + 1) cellY) * offX * (1 - offY)
      + f (toIndex w cellX (cellY + 1)) * (1 - offX) * offY
      + f (toIndex w (cellX + 1) (cellY + 1)) * offX * offY

/-- Central-difference gradient `_calcGradient(heightMap, x, y)`: `(0,0)`
outside the interior guard, else half the bilinear differences. -/
def calcGradient (w h : ℕ) (f : HMap) (x y : ℚ) : ℚ × ℚ :=
  let cellX : ℤ := ⌊x⌋
  let cellY : ℤ := ⌊y⌋
  if cellX < 1 ∨ cellY < 1 ∨ (w : ℤ) - 2 ≤ cellX ∨ (h : ℤ) - 2 ≤ cellY then (0, 0)
  else
    ((bilinearInterp w h f (x + 1) y - bilinearInterp w h f (x - 1) y) * (1/2),
     (bilinearInterp w h f x (y + 1) - bilinearInterp w h f x (y - 1)) * (1/2))

/-- Viscosity `_calculateViscosity(temperature, water)`. -/
def calcViscosity (p : Params) (water : ℚ) : ℚ :=
  if p.useTemperature = false then 1
  else (1 / (1 + p.temperature * p.viscosityFactor)) * (1 - water * (1/10))

/-- Bilinear scatter `_bilinearAdd(heightMap, x, y, offX, offY, value)`:
inside the guard, add the weighted value to the 4 corners and then clamp
each of the 4 corners to 0; outside the guard, no write at all. -/
def bilinearAdd (w h : ℕ) (f : HMap) (x y : ℤ) (offX offY value : ℚ) : HMap :=
  if 0 ≤ x ∧ 0 ≤ y ∧ x < (w : ℤ) - 1 ∧ y < (h : ℤ) - 1 then
    let i00 := toIndex w x y
    let i10 := toIndex w (x + 1) y
    let i01 := toIndex w x (y + 1)
    let i11 := toIndex w (x + 1) (y + 1)
    let f1 := updF f i00 (f i00 + value * ((1 - offX) * (1 - offY)))
    let f2 := updF f1 i10 (f1 i10 + value * (offX * (1 - offY)))
    let f3 := updF f2 i01 (f2 i01 + value * ((1 - offX) * offY))
    let f4 := updF f3 i11 (f3 i11 + value * (offX * offY))
    let c1 := updF f4 i00 (max 0 (f4 i00))
    let c2 := updF c1 i10 (max 0 (c1 i10))
    let c3 := updF c2 i01 (max 0 (c2 i01))
    updF c3 i11 (max 0 (c3 i11))
  else f

/-- `_bilinearAdd` applied to a conditionally-allocated map: when the guard
holds and the map is unallocated the JavaScript write throws (`none`); when
the guard fails the map object is never indexed, so no failure occurs. -/
def bilinearAddOpt (w h : ℕ) (mo : Option HMap) (x y : ℤ) (offX offY value : ℚ) :
    Option (Option HMap) :=
  match mo with
  | some f => some (some (bilinearAdd w h f x y offX offY value))
  | none =>
      if 0 ≤ x ∧ 0 ≤ y ∧ x < (w : ℤ) - 1 ∧ y < (h : ℤ) - 1 then none else some none

/-- Slope-map recomputation `_computeSlopeMap()`: every interior cell gets
`atan(|∇h|)` in degrees from central differences; other cells keep their
previous value (the loops never touch them). -/
def computeSlopeMap (ops : MathOps) (w h : ℕ) (hm : HMap) (slope : HMap) : HMap :=
  fun i =>
    let x := i % w
    let y := i / w
    if 1 ≤ x ∧ x + 1 < w ∧ 1 ≤ y ∧ y + 1 < h then
      let dx := (hm (i + 1) - hm (i - 1)) * (1/2)
      let dy := (hm (i + w) - hm (i - w)) * (1/2)
      ops.atanDeg (ops.sqrt (dx * dx + dy * dy))
    else slope i

/-- Talus update `_updateTalusFormation(x, y, erosion, deposition)`: returns
the new height map and talus map.  Dereferencing an unallocated slope or
talus map is a failure (`none`).  Note the height-map write adds the freshly
clamped talus value without itself being clamped. -/
def updateTalusFormation (p : Params) (w : ℕ) (hm : HMap)
    (slopeO talusO : Option HMap) (x y erosion deposition : ℚ) :
    Option (HMap × Option HMap) :=
  if p.useTalusFormation = false then some (hm, talusO)
  else
    match slopeO with
    | none => none
    | some slope =>
      let idx := toIndex w ⌊x⌋ ⌊y⌋
      let s := slope idx
      if p.talusMinSlope ≤ s ∧ s ≤ p.talusMaxSlope then
        match talusO with
        | none => none
        | some talus =>
          let talusFactor := (s - p.talusMinSlope) / (p.talusMaxSlope - p.talusMinSlope)
          let talusChange := (erosion * p.talusErosionRate
            - deposition * p.talusDepositionRate) * talusFactor * p.talusFormationRate
          let tNew := max 0 (min (talus idx + talusChange) p.talusMaxHeight)
          some (updF hm idx (hm idx + tNew * p.talusStabilityFactor),
                some (updF talus idx tNew))
      else some (hm, talusO)

/-- Droplet creation `_createDroplet()`, with the `Math.random()` draws
passed in explicitly. -/
def createDroplet (p : Params) (w h : ℕ) (r : DropletRand) : Droplet :=
  { x := r.rx * ((w : ℚ) - 2) + 1
    y := r.ry * ((h : ℚ) - 2) + 1
    dx := 0, dy := 0
    speed := p.initialSpeed
    water := p.initialVolume
    sediment := 0, lifetime := 0, alive := true
    sedimentDistribution :=
      if p.useSedimentSizes then
        some { veryFine := r.d1 * 0.3 + 0.4, fine := r.d2 * 0.2 + 0.2,
               medium := r.d3 * 0.15 + 0.1, coarse := r.d4 * 0.1 + 0.05,
               veryCoarse := r.d5 * 0.05 + 0.02 }
      else none }

/-- The velocity update, normalisation and position advance of one inner
sub-step (everything between the top of the loop body and the bounds check). -/
def dropletMove (ops : MathOps) (p : Params) (w h : ℕ) (eScale : ℚ) (hm : HMap)
    (d : Droplet) : Droplet :=
  let g := calcGradient w h hm d.x d.y
  let visc := calcViscosity p d.water
  let dx1 := d.dx * p.inertia * visc - g.1 * (1 - p.inertia) * eScale
  let dy1 := d.dy * p.inertia * visc - g.2 * (1 - p.inertia) * eScale
  let len := ops.sqrt (dx1 * dx1 + dy1 * dy1)
  let dx2 := if len = 0 then dx1 else dx1 / len
  let dy2 := if len = 0 then dy1 else dy1 / len
  { d with x := d.x + dx2 * eScale, y := d.y + dy2 * eScale, dx := dx2, dy := dy2 }

/-- The sub-step bounds check `d.x < 1 || d.x > width - 2 || d.y < 1 || d.y > height - 2`. -/
def outOfMargin (w h : ℕ) (d : Droplet) : Prop :=
  d.x < 1 ∨ (w : ℚ) - 2 < d.x ∨ d.y < 1 ∨ (h : ℚ) - 2 < d.y

instance (w h : ℕ) (d : Droplet) : Decidable (outOfMargin w h d) := by
  unfold outOfMargin; infer_instance

/-- Base sediment-carrying capacity (the multi-scale sum, or its
single-scale equivalent).  Mirrors the source's indexed loop: a missing
`scaleWeights[i]` is read as the `getD` default. -/
def baseCapacity (ops : MathOps) (p : Params) (eScale deltaH speed water : ℚ) : ℚ :=
  if p.useMultiScale then
    (List.range p.scales.length).foldl
      (fun acc i =>
        acc + max (-deltaH * p.scales.getD i 0) 0.001 * speed * water
          * p.sedimentCapacityFactor * ops.pow eScale (3/2) * p.scaleWeights.getD i 0) 0
  else
    max (-deltaH) 0.001 * speed * water * p.sedimentCapacityFactor * ops.pow eScale (3/2)

/-- Grain-size capacity adjustment (the `Object.entries(params.sedimentSizes)`
sum), applied only when the flag is set and the droplet carries a distribution. -/
def sizeAdjust (p : Params) (cap : ℚ) : Option SedDist → ℚ
  | none => cap
  | some dist =>
    if p.useSedimentSizes then
      cap * p.sedimentSizes.veryFine * dist.veryFine
        + cap * p.sedimentSizes.fine * dist.fine
        + cap * p.sedimentSizes.medium * dist.medium
        + cap * p.sedimentSizes.coarse * dist.coarse
        + cap * p.sedimentSizes.veryCoarse * dist.veryCoarse
    else cap

/-- The flow-accumulation update and capacity amplification of one sub-step
(dereferences the flow map when the flag is set). -/
def flowPhase (p : Params) (posIdx : ℕ) (eScale water speed cap : ℚ)
    (flowO : Option HMap) : Option (Option HMap × ℚ) :=
  if p.useFlowAccumulation then
    match flowO with
    | none => none
    | some flow =>
      let flow' := updF flow posIdx
        (flow posIdx + water * speed * p.flowAccumulationFactor * eScale)
      some (some flow', cap * (1 + flow' posIdx / 200 * eScale))
  else some (flowO, cap)

/-- The micro-detail residue write of one sub-step: reads the static noise
overlay at the droplet's cell and bilinearly adds the scaled amount into the
micro-detail map (dereferencing either when unallocated fails). -/
def microPhase (p : Params) (w h : ℕ) (cellX cellY : ℤ) (offX offY amount : ℚ)
    (posIdx : ℕ) (noiseO microO : Option HMap) : Option (Option HMap) :=
  if p.useMicroDetails then
    match noiseO with
    | none => none
    | some noiseF =>
      bilinearAddOpt w h microO cellX cellY offX offY (amount * (1 + noiseF posIdx))
  else some microO

/-- The erosion/deposition decision of one sub-step: deposit the surplus or
erode up to `newH`, each applied bilinearly at the pre-move cell, followed by
the talus update at the post-move position and the optional micro-detail
residue.  Returns the updated maps and the droplet's new sediment load. -/
def erosionDeposition (ops : MathOps) (p : Params) (w h : ℕ) (eScale : ℚ)
    (cellX cellY : ℤ) (offX offY newH capacity sediment x1 y1 : ℚ) (posIdx : ℕ)
    (m1 : Maps) : Option (Maps × ℚ) :=
  if capacity < sediment then
    let deposit := (sediment - capacity) * p.depositionRate * ops.pow eScale (3/2)
    (updateTalusFormation p w (bilinearAdd w h m1.heightMap cellX cellY offX offY deposit)
        m1.slopeMap m1.talusMap x1 y1 0 deposit).bind fun ht =>
    (microPhase p w h cellX cellY offX offY (deposit * 0.1 * eScale) posIdx
        m1.microDetailNoise m1.microDetailMap).bind fun micro =>
    some ({ m1 with heightMap := ht.1, talusMap := ht.2, microDetailMap := micro },
          sediment - deposit)
  else
    if 0 < min ((capacity - sediment) * p.depositionRate * ops.pow eScale (3/2)) newH then
      let erode := min ((capacity - sediment) * p.depositionRate * ops.pow eScale (3/2)) newH
      (updateTalusFormation p w
          (bilinearAdd w h m1.heightMap cellX cellY offX offY (-erode))
          m1.slopeMap m1.talusMap x1 y1 erode 0).bind fun ht =>
      (microPhase p w h cellX cellY offX offY (-(erode * 0.1 * eScale)) posIdx
          m1.microDetailNoise m1.microDetailMap).bind fun micro =>
      some ({ m1 with heightMap := ht.1, talusMap := ht.2, microDetailMap := micro },
            sediment + erode)
    else some (m1, sediment)

/-- One inner sub-step of `stepDroplets` (the whole body of the
`for (let step = 0; ...)` loop).  The body runs regardless of `d.alive`:
only the bounds check can cut it short, via `continue`, which skips the rest
of this iteration but not later iterations. -/
def subStep (ops : MathOps) (w h : ℕ) (p : Params) (eScale : ℚ) (m : Maps)
    (d : Droplet) : Option (Maps × Droplet) :=
  let cellX : ℤ := ⌊d.x⌋
  let cellY : ℤ := ⌊d.y⌋
  let offX : ℚ := d.x - cellX
  let offY : ℚ := d.y - cellY
  let hOld := bilinearInterp w h m.heightMap d.x d.y
  let d1 := dropletMove ops p w h eScale m.heightMap d
  if outOfMargin w h d1 then some (m, { d1 with alive := false })
  else
    let newH := bilinearInterp w h m.heightMap d1.x d1.y
    let deltaH := newH - hOld
    let speed1 := ops.sqrt (max 0 (d.speed * d.speed + deltaH * (-9.81) * eScale))
      * (1 - p.friction)
    let cap1 := sizeAdjust p (baseCapacity ops p eScale deltaH speed1 d.water)
      d.sedimentDistribution
    let posIdx := toIndex w ⌊d1.x⌋ ⌊d1.y⌋
    (flowPhase p posIdx eScale d.water speed1 cap1 m.flowMap).bind fun fc =>
    (erosionDeposition ops p w h eScale cellX cellY offX offY newH fc.2 d.sediment
        d1.x d1.y posIdx { m with flowMap := fc.1 }).bind fun md =>
    let water1 := d.water * (1 - p.evaporationRate * ops.pow eScale (-(1/2)))
    let life1 := d.lifetime + 1
    let aliveNew : Bool :=
      if water1 < p.minVolume ∨ p.maxDropletLifetime < (life1 : ℚ) ∨ speed1 < 0.01 then
        false
      else d1.alive
    some (md.1, { d1 with speed := speed1, water := water1, sediment := md.2,
                          lifetime := life1, alive := aliveNew })

/-- Iterate `n` inner sub-steps on one droplet. -/
def runSubsteps (ops : MathOps) (w h : ℕ) (p : Params) (eScale : ℚ) :
    ℕ → Maps → Droplet → Option (Maps × Droplet)
  | 0, m, d => some (m, d)
  | n + 1, m, d =>
    (subStep ops w h p eScale m d).bind fun md =>
      runSubsteps ops w h p eScale n md.1 md.2

/-- Iteration count of the counter loop `for (let k = init; k < dm; k++)`
with a possibly fractional bound, computed with explicit fuel (the engine
only uses it with `dm ≤ 2`, where fuel 3 suffices). -/
def jsForCount (fuel : ℕ) (dm : ℚ) (k : ℕ) : ℕ :=
  match fuel with
  | 0 => 0
  | fuel + 1 => if (k : ℚ) < dm then jsForCount fuel dm (k + 1) + 1 else 0

/-- The resolution factor `Math.sqrt((width * height) / (500 * 500))`. -/
def resolutionScale (ops : MathOps) (w h : ℕ) : ℚ :=
  ops.sqrt (((w * h : ℕ) : ℚ) / (500 * 500))

/-- The per-call erosion scale
`Math.pow(1.0 / resolutionScale, 0.5) * Math.min(resolutionScale, 3.0)`. -/
def erosionScale (ops : MathOps) (w h : ℕ) : ℚ :=
  ops.pow (1 / resolutionScale ops w h) (1/2) * min (resolutionScale ops w h) 3

/-- Number of executions of the inner sub-step loop body per selected
droplet: the loop `for (let step = 0; step < dropletMultiplier; step++)`
with `dropletMultiplier = Math.min(resolutionScale, 2.0)`. -/
def numSubSteps (ops : MathOps) (w h : ℕ) : ℕ :=
  jsForCount 3 (min (resolutionScale ops w h) 2) 0

/-- The outer droplet loop of `stepDroplets`: scan the pool in order, skip
dead droplets, process up to `batch` alive droplets, leave the rest untouched. -/
def stepLoop (ops : MathOps) (w h : ℕ) (p : Params) (eScale : ℚ) (n batch : ℕ) :
    List Droplet → ℕ → Maps → Option (Maps × List Droplet)
  | [], _, m => some (m, [])
  | d :: rest, active, m =>
    if batch ≤ active then some (m, d :: rest)
    else if d.alive = false then
      (stepLoop ops w h p eScale n batch rest active m).map fun ml => (ml.1, d :: ml.2)
    else
      (runSubsteps ops w h p eScale n m d).bind fun md =>
        (stepLoop ops w h p eScale n batch rest (active + 1) md.1).map fun ml =>
          (ml.1, md.2 :: ml.2)

/-- `stepDroplets(batchSize)`.  `r` is the `Math.random()` draw of the
periodic slope-map recompute (drawn only when talus formation is enabled).
Returns the updated engine and the `droplets.some(d => d.alive)` result;
`none` models a thrown `TypeError` (dereference of an unallocated map). -/
def stepDroplets (ops : MathOps) (e : Engine) (batchSize : ℕ) (r : ℚ) :
    Option (Engine × Bool) :=
  let eScale := erosionScale ops e.width e.height
  let n := numSubSteps ops e.width e.height
  (stepLoop ops e.width e.height e.params eScale n batchSize e.droplets 0 e.maps).bind
    fun ml =>
  (if e.params.useTalusFormation ∧ r < 0.1 then
      match ml.1.slopeMap with
      | none => none
      | some slope =>
        some { ml.1 with
          slopeMap := some (computeSlopeMap ops e.width e.height ml.1.heightMap slope) }
    else some ml.1).bind fun m2 =>
  some ({ e with maps := m2, droplets := ml.2 }, ml.2.any fun d => d.alive)

/-- The `ErosionSimulator` constructor, taking the merged parameter record
directly.  The height map is a (value-semantics) copy of the input; each
auxiliary map is allocated exactly under the flag the source tests:
`flowMap` under `useFlowAccumulation`, `microDetailMap` under
`useMultiScale`, `microDetailNoise` under `useMicroDetails`, and
`talusMap`/`slopeMap` under `useTalusFormation` (with the slope map
immediately filled by `_computeSlopeMap`).  No droplets are created here
(the worker assigns the pool separately). -/
def mkEngine (ops : MathOps) (w h : ℕ) (field : HMap) (p : Params) : Engine :=
  { width := w, height := h, params := p
    maps :=
      { heightMap := field
        flowMap := if p.useFlowAccumulation then some (fun _ => 0) else none
        microDetailMap := if p.useMultiScale then some (fun _ => 0) else none
        microDetailNoise :=
          if p.useMicroDetails then
            some (mkMicroDetailNoise w h p.microDetailScale p.microDetailStrength)
          else none
        talusMap := if p.useTalusFormation then some (fun _ => 0) else none
        slopeMap :=
          if p.useTalusFormation then
            some (computeSlopeMap ops w h field (fun _ => 0))
          else none }
    droplets := [], dropletsActive := false }

/-- `reset(heightMap)`: replace the height field, recreate a same-size
droplet pool, and reallocate each auxiliary map under its flag (a map whose
flag is off is left as it was). -/
def resetEngine (ops : MathOps) (e : Engine) (field : HMap)
    (rands : ℕ → DropletRand) : Engine :=
  { e with
    maps :=
      { heightMap := field
        flowMap := if e.params.useFlowAccumulation then some (fun _ => 0)
          else e.maps.flowMap
        microDetailMap := if e.params.useMultiScale then some (fun _ => 0)
          else e.maps.microDetailMap
        microDetailNoise :=
          if e.params.useMicroDetails then
            some (mkMicroDetailNoise e.width e.height e.params.microDetailScale
              e.params.microDetailStrength)
          else e.maps.microDetailNoise
        talusMap := if e.params.useTalusFormation then some (fun _ => 0)
          else e.maps.talusMap
        slopeMap :=
          if e.params.useTalusFormation then
            some (computeSlopeMap ops e.width e.height field (fun _ => 0))
          else e.maps.slopeMap }
    droplets := (List.range e.droplets.length).map fun i =>
      createDroplet e.params e.width e.height (rands i) }

/-- `pause()`. -/
def Engine.pause (e : Engine) : Engine := { e with dropletsActive := false }

/-- `resume()`. -/
def Engine.resume (e : Engine) : Engine := { e with dropletsActive := true }

/-- One engine-level call of the public protocol (the operations quantified
over by the non-negativity claim). -/
inductive EngOp where
  | step (batchSize : ℕ) (r : ℚ)
  | reset (field : HMap) (rands : ℕ → DropletRand)

/-- Run a finite sequence of `stepDroplets` / `reset` calls. -/
def runOps (ops : MathOps) : Engine → List EngOp → Option Engine
  | e, [] => some e
  | e, EngOp.step b r :: rest => (stepDroplets ops e b r).bind fun eb => runOps ops eb.1 rest
  | e, EngOp.reset f rs :: rest => runOps ops (resetEngine ops e f rs) rest

/-- Messages of the erosion worker protocol (`e.data` of `onmessage`),
with the random draws each handler consumes passed explicitly. -/
inductive WMsg where
  | init (w h : ℕ) (field : HMap) (p : Params) (numDroplets : ℕ)
      (rands : ℕ → DropletRand)
  | step (batchSize : ℕ) (r : ℚ)
  | pause
  | resume
  | reset (field : HMap) (rands : ℕ → DropletRand)

/-- Replies posted by the worker.  `caught` models an exception thrown by
`stepDroplets` and reported through the worker's catch clause. -/
inductive WReply where
  | initOk
  | stepReply (alive : Bool) (field : HMap)
  | ack
  | error (message : String)
  | caught

/-- The worker's `onmessage` dispatcher: `simulator` is the mutable
module-level engine slot.  A `step`/`pause`/`resume`/`reset` before a
successful `init` posts `{type:'error', message:'Simulator not initialized'}`
and returns without touching the engine.  Note the `step` handler copies the
height map BEFORE invoking `stepDroplets` and posts that pre-step copy. -/
def workerHandle (ops : MathOps) : Option Engine → WMsg → Option Engine × WReply
  | _, WMsg.init w h field p n rands =>
      (some { mkEngine ops w h field p with
                droplets := (List.range n).map fun i => createDroplet p w h (rands i) },
       WReply.initOk)
  | none, WMsg.step _ _ => (none, WReply.error "Simulator not initialized")
  | some eng, WMsg.step b r =>
      match stepDroplets ops eng b r with
      | some eb => (some eb.1, WReply.stepReply eb.2 eng.heightMap)
      | none => (some eng, WReply.caught)
  | none, WMsg.pause => (none, WReply.error "Simulator not initialized")
  | some eng, WMsg.pause => (some eng.pause, WReply.ack)
  | none, WMsg.resume => (none, WReply.error "Simulator not initialized")
  | some eng, WMsg.resume => (some eng.resume, WReply.ack)
  | none, WMsg.reset _ _ => (none, WReply.error "Simulator not initialized")
  | some eng, WMsg.reset f rs => (some (resetEngine ops eng f rs), WReply.ack)

/-- A minimal legal parameter record with every feature flag off (an
admissible `Object.assign` overlay outcome), used by the concrete scenarios. -/
def pFlat : Params :=
  { inertia := 0, friction := 0, sedimentCapacityFactor := 1, depositionRate := 1,
    evaporationRate := 0, minVolume := 0.001, initialVolume := 1, initialSpeed := 1,
    maxDropletLifetime := 120,
    useMultiScale := false, scales := [], scaleWeights := [],
    useSedimentSizes := false, sedimentSizes := ⟨1, 0.8, 0.6, 0.4, 0.2⟩,
    useFlowAccumulation := false, flowAccumulationFactor := 0.05,
    useTemperature := false, temperature := 20, viscosityFactor := 0.01,
    useMicroDetails := false, microDetailScale := 0, microDetailStrength := 0.1,
    useTalusFormation := false, talusFormationRate := 0.15, talusStabilityFactor := 0.8,
    talusErosionRate := 0.05, talusDepositionRate := 0.1, talusMaxHeight := 0.5,
    talusMinSlope := 25, talusMaxSlope := 45 }

/-- The droplet of the 4×4 flat-field scenario: spawned by `_createDroplet`
with both position draws equal to 1/2, which places it exactly at (2, 2). -/
def dC2 : Droplet := createDroplet pFlat 4 4 ⟨1/2, 1/2, 0, 0, 0, 0, 0⟩

/-- The 4×4 flat-field engine: every cell 1.0, one droplet at (2, 2). -/
def e4 : Engine :=
  { mkEngine demoOps 4 4 (fun _ => 1) pFlat with droplets := [dC2] }

/-- Parameters of the 720×720 margin-exit scenario (inertia 1 keeps the
droplet's unit velocity). -/
def p720 : Params := { pFlat with inertia := 1 }

/-- A droplet one erosion-scale step away from the interior margin, moving in
the +x direction. -/
def d720 : Droplet :=
  { x := 1435/2, y := 721/2, dx := 1, dy := 0, speed := 1, water := 1, sediment := 0,
    lifetime := 0, alive := true, sedimentDistribution := none }

/-- The 720×720 flat zero field engine holding `d720`
(`resolutionScale = 36/25`, so every selected droplet gets 2 sub-steps;
`erosionScale = 6/5` — both values exact for the real `Math.sqrt`). -/
def e720 : Engine :=
  { mkEngine demoOps 720 720 (fun _ => 0) p720 with droplets := [d720] }

/-- The parameter record exhibiting the micro-detail allocation mismatch:
`useMicroDetails` on, `useMultiScale` off. -/
def pMicro : Params :=
  { pFlat with useMicroDetails := true, microDetailScale := 0, microDetailStrength := 0 }

/-- 4×4 flat engine under `pMicro` with one droplet at (2, 2). -/
def eMicro : Engine :=
  { mkEngine demoOps 4 4 (fun _ => 1) pMicro with
      droplets := [createDroplet pMicro 4 4 ⟨1/2, 1/2, 0, 0, 0, 0, 0⟩] }

/-- Every entry of a buffer is non-negative. -/
def NonnegF (f : HMap) : Prop := ∀ i, 0 ≤ f i

/-- Every entry of an optional buffer is non-negative (vacuous when absent). -/
def NonnegO (o : Option HMap) : Prop := ∀ g, o = some g → NonnegF g

theorem updF_same (f : HMap) (i : ℕ) (v : ℚ) : updF f i v i = v := by
  simp [updF]

theorem updF_other (f : HMap) (i : ℕ) (v : ℚ) {j : ℕ} (h : j ≠ i) :
    updF f i v j = f j := by
  simp [updF, h]

theorem nonnegF_updF {f : HMap} (hf : NonnegF f) {v : ℚ} (hv : 0 ≤ v) (i : ℕ) :
    NonnegF (updF f i v) := by
  intro j
  by_cases h : j = i
  · subst h; rw [updF_same]; exact hv
  · rw [updF_other _ _ _ h]; exact hf j

theorem nonnegO_none : NonnegO none := by
  intro g hg; cases hg

theorem nonnegO_some {f : HMap} (hf : NonnegF f) : NonnegO (some f) := by
  intro g hg; cases hg; exact hf

theorem nonnegF_const_zero : NonnegF (fun _ => 0) := fun _ => le_refl 0

/-- Whatever value is scattered, `_bilinearAdd` leaves a non-negative buffer
non-negative: the only entries it changes are the four corners, and each of
them is clamped with `Math.max(0, ·)` after the adds. -/
theorem nonnegF_bilinearAdd {f : HMap} (hf : NonnegF f) (w h : ℕ) (x y : ℤ)
    (offX offY value : ℚ) : NonnegF (bilinearAdd w h f x y offX offY value) := by
  unfold bilinearAdd
  split
  · intro j
    by_cases h11 : j = toIndex w (x + 1) (y + 1)
    · subst h11; rw [updF_same]; exact le_max_left 0 _
    · rw [updF_other _ _ _ h11]
      by_cases h01 : j = toIndex w x (y + 1)
      · subst h01; rw [updF_same]; exact le_max_left 0 _
      · rw [updF_other _ _ _ h01]
        by_cases h10 : j = toIndex w (x + 1) y
        · subst h10; rw [updF_same]; exact le_max_left 0 _
        · rw [updF_other _ _ _ h10]
          by_cases h00 : j = toIndex w x y
          · subst h00; rw [updF_same]; exact le_max_left 0 _
          · rw [updF_other _ _ _ h00, updF_other _ _ _ h11, updF_other _ _ _ h01,
                updF_other _ _ _ h10, updF_other _ _ _ h00]
            exact hf j
  · exact hf

/-- The talus update preserves non-negativity of the height map and of the
talus map, provided `talusStabilityFactor` is non-negative: the talus cell is
re-clamped into `[0, talusMaxHeight]` before being scaled and added. -/
theorem updateTalusFormation_nonneg {p : Params} (hstab : 0 ≤ p.talusStabilityFactor)
    {w : ℕ} {hm : HMap} (hhm : NonnegF hm) {sO tO : Option HMap} (htO : NonnegO tO)
    {x y er dep : ℚ} {hm2 : HMap} {tO2 : Option HMap}
    (hrun : updateTalusFormation p w hm sO tO x y er dep = some (hm2, tO2)) :
    NonnegF hm2 ∧ NonnegO tO2 := by
  unfold updateTalusFormation at hrun
  split at hrun
  · cases hrun; exact ⟨hhm, htO⟩
  · cases hsl : sO with
    | none => rw [hsl] at hrun; cases hrun
    | some slope =>
      rw [hsl] at hrun
      simp only at hrun
      split at hrun
      · cases htl : tO with
        | none => rw [htl] at hrun; cases hrun
        | some talus =>
          rw [htl] at hrun
          simp only at hrun
          cases hrun
          constructor
          · refine nonnegF_updF hhm ?_ _
            have h1 : (0:ℚ) ≤ max 0 (min (talus (toIndex w ⌊x⌋ ⌊y⌋) +
                (er * p.talusErosionRate - dep * p.talusDepositionRate) *
                  ((slope (toIndex w ⌊x⌋ ⌊y⌋) - p.talusMinSlope) /
                    (p.talusMaxSlope - p.talusMinSlope)) * p.talusFormationRate)
                p.talusMaxHeight) := le_max_left 0 _
            exact add_nonneg (hhm _) (mul_nonneg h1 hstab)
          · exact nonnegO_some (nonnegF_updF (htO talus htl) (le_max_left 0 _) _)
      · cases hrun; exact ⟨hhm, htO⟩

/-- The erosion/deposition phase preserves non-negativity of the height map
and talus map: both branches scatter through the clamping `_bilinearAdd` and
the clamped talus update. -/
theorem erosionDeposition_nonneg {ops : MathOps} {p : Params}
    (hstab : 0 ≤ p.talusStabilityFactor) {w h : ℕ} {eScale : ℚ} {cellX cellY : ℤ}
    {offX offY newH cap sed x1 y1 : ℚ} {posIdx : ℕ} {m1 : Maps}
    (hhm : NonnegF m1.heightMap) (ht : NonnegO m1.talusMap) {md : Maps × ℚ}
    (hrun : erosionDeposition ops p w h eScale cellX cellY offX offY newH cap sed
      x1 y1 posIdx m1 = some md) :
    NonnegF md.1.heightMap ∧ NonnegO md.1.talusMap := by
  unfold erosionDeposition at hrun
  split at hrun
  · rcases Option.bind_eq_some.mp hrun with ⟨htl, hhtl, hrest⟩
    rcases Option.bind_eq_some.mp hrest with ⟨micro, _, hfin⟩
    cases hfin
    exact updateTalusFormation_nonneg hstab (nonnegF_bilinearAdd hhm w h cellX cellY
      offX offY _) ht hhtl
  · split at hrun
    · rcases Option.bind_eq_some.mp hrun with ⟨htl, hhtl, hrest⟩
      rcases Option.bind_eq_some.mp hrest with ⟨micro, _, hfin⟩
      cases hfin
      exact updateTalusFormation_nonneg hstab (nonnegF_bilinearAdd hhm w h cellX cellY
        offX offY _) ht hhtl
    · cases hrun; exact ⟨hhm, ht⟩

/-- One sub-step preserves non-negativity of the height map and talus map. -/
theorem subStep_nonneg {ops : MathOps} {w h : ℕ} {p : Params}
    (hstab : 0 ≤ p.talusStabilityFactor) {eScale : ℚ} {m : Maps} {d : Droplet}
    (hhm : NonnegF m.heightMap) (ht : NonnegO m.talusMap) {m2 : Maps} {d2 : Droplet}
    (hrun : subStep ops w h p eScale m d = some (m2, d2)) :
    NonnegF m2.heightMap ∧ NonnegO m2.talusMap := by
  simp only [subStep] at hrun
  split at hrun
  · cases hrun; exact ⟨hhm, ht⟩
  · rcases Option.bind_eq_some.mp hrun with ⟨fc, _, hrest⟩
    rcases Option.bind_eq_some.mp hrest with ⟨md, hmd, hfin⟩
    cases hfin
    refine erosionDeposition_nonneg hstab ?_ ?_ hmd
    · exact hhm
    · exact ht

/-- Iterated sub-steps preserve non-negativity. -/
theorem runSubsteps_nonneg {ops : MathOps} {w h : ℕ} {p : Params}
    (hstab : 0 ≤ p.talusStabilityFactor) {eScale : ℚ} :
    ∀ (n : ℕ) (m : Maps) (d : Droplet) (m2 : Maps) (d2 : Droplet),
      NonnegF m.heightMap → NonnegO m.talusMap →
      runSubsteps ops w h p eScale n m d = some (m2, d2) →
      NonnegF m2.heightMap ∧ NonnegO m2.talusMap := by
  intro n
  induction n with
  | zero => intro m d m2 d2 hhm ht hrun; cases hrun; exact ⟨hhm, ht⟩
  | succ k ih =>
    intro m d m2 d2 hhm ht hrun
    simp only [runSubsteps] at hrun
    rcases Option.bind_eq_some.mp hrun with ⟨md, hmd, hrest⟩
    obtain ⟨m1, d1⟩ := md
    have h1 := subStep_nonneg hstab hhm ht hmd
    exact ih m1 d1 m2 d2 h1.1 h1.2 hrest

/-- The outer droplet loop preserves non-negativity. -/
theorem stepLoop_nonneg {ops : MathOps} {w h : ℕ} {p : Params}
    (hstab : 0 ≤ p.talusStabilityFactor) {eScale : ℚ} {n batch : ℕ} :
    ∀ (ds : List Droplet) (active : ℕ) (m : Maps) (m2 : Maps) (ds2 : List Droplet),
      NonnegF m.heightMap → NonnegO m.talusMap →
      stepLoop ops w h p eScale n batch ds active m = some (m2, ds2) →
      NonnegF m2.heightMap ∧ NonnegO m2.talusMap := by
  intro ds
  induction ds with
  | nil => intro active m m2 ds2 hhm ht hrun; cases hrun; exact ⟨hhm, ht⟩
  | cons d rest ih =>
    intro active m m2 ds2 hhm ht hrun
    simp only [stepLoop] at hrun
    split at hrun
    · cases hrun; exact ⟨hhm, ht⟩
    · split at hrun
      · rcases Option.map_eq_some'.mp hrun with ⟨ml, hml, hfin⟩
        cases hfin
        exact ih active m ml.1 ml.2 hhm ht hml
      · rcases Option.bind_eq_some.mp hrun with ⟨md, hmd, hrest⟩
        rcases Option.map_eq_some'.mp hrest with ⟨ml, hml, hfin⟩
        cases hfin
        have h1 := runSubsteps_nonneg hstab n m d md.1 md.2 hhm ht (by rw [hmd])
        exact ih (active + 1) md.1 ml.1 ml.2 h1.1 h1.2 hml

/-- Engine-level non-negativity invariant: every cell of the height field,
and of the talus map when allocated, is `≥ 0`. -/
def EngineNonneg (e : Engine) : Prop :=
  NonnegF e.maps.heightMap ∧ NonnegO e.maps.talusMap

/-- `stepDroplets` preserves the non-negativity invariant (for every choice
of math primitives, batch size and random draw). -/
theorem stepDroplets_nonneg {ops : MathOps} {e : Engine}
    (hstab : 0 ≤ e.params.talusStabilityFactor) (he : EngineNonneg e)
    {batch : ℕ} {r : ℚ} {e2 : Engine} {alive : Bool}
    (hrun : stepDroplets ops e batch r = some (e2, alive)) : EngineNonneg e2 := by
  simp only [stepDroplets] at hrun
  rcases Option.bind_eq_some.mp hrun with ⟨ml, hml, hrest⟩
  rcases Option.bind_eq_some.mp hrest with ⟨m2, hm2, hfin⟩
  cases hfin
  have h1 := stepLoop_nonneg hstab e.droplets 0 e.maps ml.1 ml.2 he.1 he.2 (by rw [hml])
  split at hm2
  · cases hsl : ml.1.slopeMap with
    | none => rw [hsl] at hm2; cases hm2
    | some slope =>
      rw [hsl] at hm2
      simp only at hm2
      cases hm2
      exact ⟨h1.1, h1.2⟩
  · cases hm2; exact ⟨h1.1, h1.2⟩

/-- The constructor establishes the invariant from a non-negative input field. -/
theorem mkEngine_nonneg {ops : MathOps} {w h : ℕ} {field : HMap} {p : Params}
    (hfield : NonnegF field) : EngineNonneg (mkEngine ops w h field p) := by
  constructor
  · exact hfield
  · simp only [mkEngine]
    split
    · exact nonnegO_some nonnegF_const_zero
    · exact nonnegO_none

/-- `reset` re-establishes the invariant from a non-negative new field. -/
theorem resetEngine_nonneg {ops : MathOps} {e : Engine} (he : EngineNonneg e)
    {field : HMap} (hfield : NonnegF field) {rands : ℕ → DropletRand} :
    EngineNonneg (resetEngine ops e field rands) := by
  constructor
  · exact hfield
  · simp only [resetEngine]
    split
    · exact nonnegO_some nonnegF_const_zero
    · exact he.2

/-- Only reset calls whose replacement field is non-negative. -/
def TraceOK (tr : List EngOp) : Prop :=
  ∀ op ∈ tr, ∀ f rs, op = EngOp.reset f rs → NonnegF f

/-- Any finite sequence of `stepDroplets`/`reset` calls preserves the
non-negativity invariant, for all math primitives and random draws. -/
theorem runOps_nonneg {ops : MathOps} :
    ∀ (tr : List EngOp) (e : Engine), 0 ≤ e.params.talusStabilityFactor →
      EngineNonneg e → TraceOK tr → ∀ e2, runOps ops e tr = some e2 → EngineNonneg e2 := by
  intro tr
  induction tr with
  | nil => intro e _ he _ e2 hrun; cases hrun; exact he
  | cons op rest ih =>
    intro e hstab he htr e2 hrun
    cases op with
    | step b r =>
      simp only [runOps] at hrun
      rcases Option.bind_eq_some.mp hrun with ⟨eb, heb, hrest⟩
      obtain ⟨e1, alv⟩ := eb
      have h1 : EngineNonneg e1 := stepDroplets_nonneg hstab he heb
      have h2 : e1.params = e.params := by
        have := heb
        simp only [stepDroplets] at this
        rcases Option.bind_eq_some.mp this with ⟨ml, _, hr2⟩
        rcases Option.bind_eq_some.mp hr2 with ⟨m2, _, hfin⟩
        cases hfin; rfl
      exact ih e1 (h2 ▸ hstab) h1 (fun o ho f rs hf => htr o (List.mem_cons_of_mem _ ho) f rs hf) e2 hrest
    | reset f rs =>
      simp only [runOps] at hrun
      have hf : NonnegF f := htr _ (List.mem_cons_self _ _) f rs rfl
      exact ih (resetEngine ops e f rs) hstab (resetEngine_nonneg he hf)
        (fun o ho g gs hg => htr o (List.mem_cons_of_mem _ ho) g gs hg) e2 hrun

/-- C1 counterexample: the claim quantifies over every initial height field,
but the constructor copies the field without clamping, so a negative initial
field violates cell non-negativity already after the empty call sequence. -/
theorem C1_counterexample :
    runOps demoOps (mkEngine demoOps 2 2 (fun _ => -1) pFlat) [] =
      some (mkEngine demoOps 2 2 (fun _ => -1) pFlat) ∧
    (mkEngine demoOps 2 2 (fun _ => -1) pFlat).heightMap 0 < 0 :=
  ⟨rfl, by norm_num [mkEngine, Engine.heightMap]⟩

/-- C1 (amended): when the initial height field is non-negative, every field
passed to `reset` is non-negative, and `talusStabilityFactor ≥ 0`, every cell
of the engine's height field stays `≥ 0` after any finite sequence of
`stepDroplets`/`reset` calls, for every choice of math primitives, batch
sizes and random draws.  (The `_bilinearAdd` writes are clamped to 0; the
talus write at line 263 of the source is not clamped, but adds
`talusMap[idx] * talusStabilityFactor` with `talusMap[idx]` freshly clamped
into `[0, talusMaxHeight]`, hence non-negative under the hypothesis.) -/
theorem C1_theorem :
    ∀ (ops : MathOps) (w h : ℕ) (field : HMap) (p : Params) (ds : List Droplet)
      (tr : List EngOp),
      0 ≤ p.talusStabilityFactor → NonnegF field → TraceOK tr →
      ∀ e2, runOps ops { mkEngine ops w h field p with droplets := ds } tr = some e2 →
        ∀ i, 0 ≤ e2.heightMap i := by
  intro ops w h field p ds tr hstab hf htr e2 hrun i
  have h0 : EngineNonneg { mkEngine ops w h field p with droplets := ds } :=
    ⟨(@mkEngine_nonneg ops w h field p hf).1, (@mkEngine_nonneg ops w h field p hf).2⟩
  exact (runOps_nonneg tr _ hstab h0 htr e2 hrun).1 i

/-- C1 witness: the amended theorem applied to a concrete 4×4 all-ones engine
and the empty call sequence. -/
theorem C1_witness :
    (0 ≤ pFlat.talusStabilityFactor ∧ (0:ℚ) ≤ 1) ∧
      0 ≤ ({ mkEngine demoOps 4 4 (fun _ => 1) pFlat with droplets := [] } : Engine).heightMap 5 :=
  ⟨⟨by norm_num [pFlat], by norm_num⟩,
   C1_theorem demoOps 4 4 (fun _ => 1) pFlat [] [] (by norm_num [pFlat])
     (fun _ => by norm_num) (fun op ho => nomatch ho) _ rfl 5⟩

/-- C6 counterexample: on a 2×2 grid, sampling at the integer point (1, 0)
falls on the guard (`cellX ≥ width − 1`) and returns 0, not the stored cell
value 2. -/
theorem C6_counterexample :
    bilinearInterp 2 2 (fun i => (i : ℚ) + 1) 1 0 = 0 ∧
      (fun i => ((i : ℚ) + 1)) (toIndex 2 1 0) = 2 ∧ ((0 : ℚ) ≠ 2) := by
  refine ⟨by norm_num [bilinearInterp, toIndex], by norm_num [toIndex, Int.toNat_ofNat], by norm_num⟩

/-- C6 (amended): bilinear sampling at integer coordinates returns exactly
the stored cell value whenever the point lies strictly inside the guard
region `0 ≤ x ≤ width − 2`, `0 ≤ y ≤ height − 2`; on the last row/column the
guard returns 0 instead. -/
theorem C6_theorem :
    ∀ (w h : ℕ) (f : HMap) (a b : ℤ), 0 ≤ a → 0 ≤ b → a < (w : ℤ) - 1 → b < (h : ℤ) - 1 →
      bilinearInterp w h f (a : ℚ) (b : ℚ) = f (toIndex w a b) := by
  intro w h f a b ha hb haw hbh
  simp only [bilinearInterp, Int.floor_intCast]
  rw [if_neg (by push_neg; refine ⟨by exact_mod_cast ha, by exact_mod_cast hb, ?_, ?_⟩ <;> omega)]
  simp [sub_self]

/-- C6 witness: the amended theorem at a concrete interior integer point. -/
theorem C6_witness :
    bilinearInterp 3 3 (fun _ => (5 : ℚ)) ((1 : ℤ) : ℚ) ((1 : ℤ) : ℚ) =
      (fun _ => (5 : ℚ)) (toIndex 3 1 1) :=
  C6_theorem 3 3 (fun _ => 5) 1 1 (by decide) (by decide) (by decide) (by decide)

/-- C8: `pause()` and `resume()` change only the activity flag — the height
map, every auxiliary map (all bundled in `maps`), the droplet pool and the
dimensions/parameters are untouched. -/
theorem C8_theorem : ∀ e : Engine,
    ((Engine.pause e).maps = e.maps ∧ (Engine.pause e).droplets = e.droplets ∧
     (Engine.pause e).width = e.width ∧ (Engine.pause e).height = e.height ∧
     (Engine.pause e).params = e.params ∧ (Engine.pause e).dropletsActive = false) ∧
    ((Engine.resume e).maps = e.maps ∧ (Engine.resume e).droplets = e.droplets ∧
     (Engine.resume e).width = e.width ∧ (Engine.resume e).height = e.height ∧
     (Engine.resume e).params = e.params ∧ (Engine.resume e).dropletsActive = true) :=
  fun _ => ⟨⟨rfl, rfl, rfl, rfl, rfl, rfl⟩, ⟨rfl, rfl, rfl, rfl, rfl, rfl⟩⟩

/-- C9 counterexample: the pre-init failure message posted by the worker is
the string "Simulator not initialized", not the claimed "not initialized". -/
theorem C9_counterexample :
    (workerHandle demoOps none (WMsg.step 5 (1/2))).2 =
        WReply.error "Simulator not initialized" ∧
      WReply.error "Simulator not initialized" ≠ WReply.error "not initialized" := by
  refine ⟨rfl, fun hcontra => ?_⟩
  injection hcontra with hmsg
  exact absurd hmsg (by decide)

/-- C9 (amended): a step request before any successful init leaves the
engine slot empty and is answered with the reported (not thrown) failure
reply `error "Simulator not initialized"` — in particular `stepDroplets` is
never invoked, since the handler returns before reaching it — and the
failure is non-fatal: a subsequent init installs an engine and replies with
success. -/
theorem C9_theorem : ∀ (ops : MathOps) (b : ℕ) (r : ℚ),
    workerHandle ops none (WMsg.step b r) =
      (none, WReply.error "Simulator not initialized") ∧
    ∀ (w h : ℕ) (field : HMap) (p : Params) (n : ℕ) (rands : ℕ → DropletRand),
      (workerHandle ops none (WMsg.init w h field p n rands)).2 = WReply.initOk ∧
      (workerHandle ops none (WMsg.init w h field p n rands)).1.isSome = true :=
  fun _ _ _ => ⟨rfl, fun _ _ _ _ _ _ => ⟨rfl, rfl⟩⟩

/-- C10: the micro-detail residue map is allocated under `useMultiScale`,
not under `useMicroDetails`: with `useMicroDetails = true` and
`useMultiScale = false` (a configuration the constructor accepts), the
constructor leaves `microDetailMap` unallocated, and a `stepDroplets` call
whose droplet erodes dereferences it — the modelled TypeError (`none`). -/
theorem bilinearInterp_const (w h : ℕ) (c x y : ℚ)
    (hng : ¬(⌊x⌋ < 0 ∨ ⌊y⌋ < 0 ∨ (w : ℤ) - 1 ≤ ⌊x⌋ ∨ (h : ℤ) - 1 ≤ ⌊y⌋)) :
    bilinearInterp w h (fun _ => c) x y = c := by
  simp only [bilinearInterp]
  rw [if_neg hng]
  ring

theorem calcGradient_const (w h : ℕ) (c x y : ℚ) :
    calcGradient w h (fun _ => c) x y = (0, 0) := by
  simp only [calcGradient]
  split
  · rfl
  · rename_i hng
    push_neg at hng
    obtain ⟨h1, h2, h3, h4⟩ := hng
    have e1 : bilinearInterp w h (fun _ => c) (x + 1) y = c := by
      refine bilinearInterp_const w h c (x + 1) y ?_
      push_neg
      rw [show (1 : ℚ) = ((1 : ℤ) : ℚ) by norm_num, Int.floor_add_int]
      exact ⟨by omega, by omega, by omega, by omega⟩
    have e2 : bilinearInterp w h (fun _ => c) (x - 1) y = c := by
      refine bilinearInterp_const w h c (x - 1) y ?_
      push_neg
      rw [show x - 1 = x + ((-1 : ℤ) : ℚ) by push_cast; ring, Int.floor_add_int]
      exact ⟨by omega, by omega, by omega, by omega⟩
    have e3 : bilinearInterp w h (fun _ => c) x (y + 1) = c := by
      refine bilinearInterp_const w h c x (y + 1) ?_
      push_neg
      rw [show (1 : ℚ) = ((1 : ℤ) : ℚ) by norm_num, Int.floor_add_int]
      exact ⟨by omega, by omega, by omega, by omega⟩
    have e4 : bilinearInterp w h (fun _ => c) x (y - 1) = c := by
      refine bilinearInterp_const w h c x (y - 1) ?_
      push_neg
      rw [show y - 1 = y + ((-1 : ℤ) : ℚ) by push_cast; ring, Int.floor_add_int]
      exact ⟨by omega, by omega, by omega, by omega⟩
    rw [e1, e2, e3, e4]
    norm_num

theorem C10_theorem :
    pMicro.useMicroDetails = true ∧ pMicro.useMultiScale = false ∧
    (mkEngine demoOps 4 4 (fun _ => 1) pMicro).maps.microDetailMap = none ∧
    stepDroplets demoOps eMicro 1 (1/2) = none := by
  refine ⟨rfl, rfl, rfl, ?_⟩
  have hd : eMicro.droplets = [⟨2, 2, 0, 0, 1, 1, 0, 0, true, none⟩] := by
    show [createDroplet pMicro 4 4 ⟨1/2, 1/2, 0, 0, 0, 0, 0⟩] = _
    norm_num [createDroplet, pMicro, pFlat]
  have hE : erosionScale demoOps 4 4 = 56/625 := by
    norm_num [erosionScale, resolutionScale, demoOps, demoSqrt, demoPow]
  have hn : numSubSteps demoOps 4 4 = 1 := by
    norm_num [numSubSteps, resolutionScale, demoOps, demoSqrt, jsForCount]
  have hsub : subStep demoOps 4 4 pMicro (56/625) eMicro.maps
      ⟨2, 2, 0, 0, 1, 1, 0, 0, true, none⟩ = none := by
    have hhm : eMicro.maps.heightMap = (fun _ => 1) := rfl
    have hnoise : eMicro.maps.microDetailNoise = some (mkMicroDetailNoise 4 4 0 0) := rfl
    have hmicro : eMicro.maps.microDetailMap = none := rfl
    have hmove : dropletMove demoOps pMicro 4 4 (56/625) eMicro.maps.heightMap
        ⟨2, 2, 0, 0, 1, 1, 0, 0, true, none⟩ = ⟨2, 2, 0, 0, 1, 1, 0, 0, true, none⟩ := by
      rw [hhm]
      simp only [dropletMove, calcGradient_const]
      norm_num [calcViscosity, pMicro, pFlat, demoOps, demoSqrt]
    have hbil : bilinearInterp 4 4 eMicro.maps.heightMap 2 2 = 1 := by
      rw [hhm]; exact bilinearInterp_const 4 4 1 2 2 (by norm_num)
    simp only [subStep, hmove]
    rw [if_neg (by norm_num [outOfMargin])]
    norm_num [hbil, flowPhase, erosionDeposition, updateTalusFormation, microPhase,
      bilinearAddOpt, baseCapacity, sizeAdjust, hmicro, hnoise, Option.bind,
      pMicro, pFlat, demoOps, demoSqrt, demoPow, toIndex, Int.toNat_ofNat]
  have hw : eMicro.width = 4 := rfl
  have hh : eMicro.height = 4 := rfl
  have hp : eMicro.params = pMicro := rfl
  simp only [stepDroplets, hw, hh, hp, hE, hn, hd]
  norm_num [stepLoop, runSubsteps, hsub, Option.bind]

/-- C5 counterexample: `_createDroplet` draws `x = random()·(width−2)+1`; the
draw 3/4 on a 4×4 grid spawns an alive droplet at x = 2.5 > width − 2 = 2,
violating the claimed invariant immediately after creation. -/
theorem C5_counterexample :
    ((0 : ℚ) ≤ 3/4 ∧ (3/4 : ℚ) < 1) ∧
    (createDroplet pFlat 4 4 ⟨3/4, 1/2, 0, 0, 0, 0, 0⟩).alive = true ∧
    (createDroplet pFlat 4 4 ⟨3/4, 1/2, 0, 0, 0, 0, 0⟩).x = 5/2 ∧
    ¬((createDroplet pFlat 4 4 ⟨3/4, 1/2, 0, 0, 0, 0, 0⟩).x ≤ (4 : ℚ) - 2) := by
  norm_num [createDroplet, pFlat]

/-- C5 (amended): creation guarantees only the half-open box
`[1, width−1) × [1, height−1)` (for draws in `[0,1)` on a grid with an
interior); the stricter bound `x ≤ width−2` holds for a droplet that is still
alive after a sub-step, because the only way to survive the bounds check is
to satisfy it. -/
theorem C5_theorem : ∀ (p : Params) (w h : ℕ) (r : DropletRand),
    3 ≤ w → 3 ≤ h → 0 ≤ r.rx → r.rx < 1 → 0 ≤ r.ry → r.ry < 1 →
    (1 ≤ (createDroplet p w h r).x ∧ (createDroplet p w h r).x < (w : ℚ) - 1 ∧
     1 ≤ (createDroplet p w h r).y ∧ (createDroplet p w h r).y < (h : ℚ) - 1) ∧
    ∀ (ops : MathOps) (eScale : ℚ) (m : Maps) (d : Droplet) (m2 : Maps) (d2 : Droplet),
      subStep ops w h p eScale m d = some (m2, d2) → d2.alive = true →
      1 ≤ d2.x ∧ d2.x ≤ (w : ℚ) - 2 ∧ 1 ≤ d2.y ∧ d2.y ≤ (h : ℚ) - 2 := by
  intro p w h r hw hh hrx0 hrx1 hry0 hry1
  have hwq : (3 : ℚ) ≤ (w : ℚ) := by exact_mod_cast hw
  have hhq : (3 : ℚ) ≤ (h : ℚ) := by exact_mod_cast hh
  constructor
  · simp only [createDroplet]
    refine ⟨?_, ?_, ?_, ?_⟩
    · nlinarith [mul_nonneg hrx0 (show (0:ℚ) ≤ (w : ℚ) - 2 by linarith)]
    · nlinarith [mul_lt_of_lt_one_left (show (0:ℚ) < (w : ℚ) - 2 by linarith) hrx1]
    · nlinarith [mul_nonneg hry0 (show (0:ℚ) ≤ (h : ℚ) - 2 by linarith)]
    · nlinarith [mul_lt_of_lt_one_left (show (0:ℚ) < (h : ℚ) - 2 by linarith) hry1]
  · intro ops eScale m d m2 d2 hstep halive
    simp only [subStep] at hstep
    split at hstep
    · cases hstep
      simp at halive
    · rename_i hout
      rcases Option.bind_eq_some.mp hstep with ⟨fc, _, hrest⟩
      rcases Option.bind_eq_some.mp hrest with ⟨md, _, hfin⟩
      cases hfin
      simp only [outOfMargin] at hout
      push_neg at hout
      exact ⟨hout.1, hout.2.1, hout.2.2.1, hout.2.2.2⟩

/-- C5 witness: the amended creation bound evaluated at the concrete 4×4
flat-field droplet. -/
theorem C5_witness :
    1 ≤ (createDroplet pFlat 4 4 ⟨1/2, 1/2, 0, 0, 0, 0, 0⟩).x ∧
      (createDroplet pFlat 4 4 ⟨1/2, 1/2, 0, 0, 0, 0, 0⟩).x < (4 : ℚ) - 1 :=
  ⟨(C5_theorem pFlat 4 4 ⟨1/2, 1/2, 0, 0, 0, 0, 0⟩ (by norm_num) (by norm_num)
      (by norm_num) (by norm_num) (by norm_num) (by norm_num)).1.1,
   (C5_theorem pFlat 4 4 ⟨1/2, 1/2, 0, 0, 0, 0, 0⟩ (by norm_num) (by norm_num)
      (by norm_num) (by norm_num) (by norm_num) (by norm_num)).1.2.1⟩

/-- The counter loop `for (let k = 0; k < dm; k++)` with a fractional bound
`dm ≤ 2` executes `⌈dm⌉₊` times. -/
theorem jsForCount3_eq_ceil (dm : ℚ) (hdm : dm ≤ 2) : jsForCount 3 dm 0 = ⌈dm⌉₊ := by
  by_cases h0 : dm ≤ 0
  · have hn0 : ¬ ((0 : ℚ) < dm) := not_lt.mpr h0
    simp only [jsForCount, Nat.cast_zero, hn0, if_false]
    exact (Nat.ceil_eq_zero.mpr h0).symm
  · push_neg at h0
    by_cases h1 : dm ≤ 1
    · have e1 : ⌈dm⌉₊ = 1 :=
        le_antisymm (Nat.ceil_le.mpr (by exact_mod_cast h1)) (Nat.ceil_pos.mpr h0)
      simp only [jsForCount]
      norm_num
      rw [if_pos h0, if_neg (not_lt.mpr h1), e1]
    · push_neg at h1
      have e2 : ⌈dm⌉₊ = 2 :=
        le_antisymm (Nat.ceil_le.mpr (by exact_mod_cast hdm))
          (Nat.lt_ceil.mpr (by exact_mod_cast h1))
      simp only [jsForCount]
      norm_num
      rw [if_pos h0, if_pos h1, if_neg (not_lt.mpr hdm), e2]

/-- C3 counterexample: for a 750×750 grid `resolutionScale = 3/2` (exactly,
also for the real `Math.sqrt`), and each selected droplet is processed for
2 = ⌈3/2⌉ inner sub-steps, not ⌊3/2⌋ = 1 as claimed. -/
theorem C3_counterexample :
    resolutionScale demoOps 750 750 = 3/2 ∧
    numSubSteps demoOps 750 750 = 2 ∧
    ⌊min (resolutionScale demoOps 750 750) 2⌋ = 1 ∧
    ¬((numSubSteps demoOps 750 750 : ℤ) = ⌊min (resolutionScale demoOps 750 750) 2⌋) := by
  have h1 : resolutionScale demoOps 750 750 = 3/2 := by
    norm_num [resolutionScale, demoOps, demoSqrt]
  have h2 : numSubSteps demoOps 750 750 = 2 := by
    norm_num [numSubSteps, resolutionScale, demoOps, demoSqrt, jsForCount]
  refine ⟨h1, h2, ?_, ?_⟩
  · rw [h1]; norm_num
  · rw [h1, h2]; norm_num

/-- C3 (amended): each selected alive droplet is processed for exactly
`⌈min(resolutionScale, 2.0)⌉` inner sub-steps — the JavaScript counter loop
runs the ceiling, not the floor, of its fractional bound — and at least one
sub-step whenever `resolutionScale > 0`. -/
theorem C3_theorem : ∀ (ops : MathOps) (w h : ℕ),
    0 < resolutionScale ops w h →
    numSubSteps ops w h = ⌈min (resolutionScale ops w h) 2⌉₊ ∧
      1 ≤ numSubSteps ops w h := by
  intro ops w h hpos
  have heq : numSubSteps ops w h = ⌈min (resolutionScale ops w h) 2⌉₊ := by
    unfold numSubSteps
    exact jsForCount3_eq_ceil _ (min_le_right _ _)
  refine ⟨heq, ?_⟩
  rw [heq]
  exact Nat.ceil_pos.mpr (lt_min hpos (by norm_num))

/-- C3 witness: the amended sub-step count at the 4×4 grid
(`resolutionScale = 1/125`, one sub-step). -/
theorem C3_witness :
    0 < resolutionScale demoOps 4 4 ∧
      (numSubSteps demoOps 4 4 = ⌈min (resolutionScale demoOps 4 4) 2⌉₊ ∧
        1 ≤ numSubSteps demoOps 4 4) :=
  ⟨by norm_num [resolutionScale, demoOps, demoSqrt],
   C3_theorem demoOps 4 4 (by norm_num [resolutionScale, demoOps, demoSqrt])⟩

/-- C4 (amended): when the moved position of a sub-step leaves the interior
margin, the droplet is flagged dead with its position change kept and the
maps untouched in that sub-step — but the `continue` only skips the rest of
that loop iteration: the remaining inner sub-steps still run on the dead
droplet. -/
theorem C4_theorem : ∀ (ops : MathOps) (w h : ℕ) (p : Params) (eScale : ℚ) (m : Maps)
    (d : Droplet), outOfMargin w h (dropletMove ops p w h eScale m.heightMap d) →
    subStep ops w h p eScale m d =
      some (m, { dropletMove ops p w h eScale m.heightMap d with alive := false }) ∧
    ∀ n, runSubsteps ops w h p eScale (n + 1) m d =
      runSubsteps ops w h p eScale n m
        { dropletMove ops p w h eScale m.heightMap d with alive := false } := by
  intro ops w h p eScale m d hout
  have h1 : subStep ops w h p eScale m d =
      some (m, { dropletMove ops p w h eScale m.heightMap d with alive := false }) := by
    simp only [subStep]
    rw [if_pos hout]
  exact ⟨h1, fun n => by simp only [runSubsteps, h1, Option.bind]⟩

/-- C4 witness: the amended margin-exit behaviour at the concrete 720×720
scenario (`erosionScale = 6/5`, exact for the real `Math.sqrt`). -/
theorem C4_witness :
    outOfMargin 720 720 (dropletMove demoOps p720 720 720 (erosionScale demoOps 720 720)
      e720.maps.heightMap d720) ∧
    subStep demoOps 720 720 p720 (erosionScale demoOps 720 720) e720.maps d720 =
      some (e720.maps, { dropletMove demoOps p720 720 720 (erosionScale demoOps 720 720)
        e720.maps.heightMap d720 with alive := false }) := by
  have hout : outOfMargin 720 720 (dropletMove demoOps p720 720 720
      (erosionScale demoOps 720 720) e720.maps.heightMap d720) := by
    have hE : erosionScale demoOps 720 720 = 6/5 := by
      norm_num [erosionScale, resolutionScale, demoOps, demoSqrt, demoPow]
    have hhm : e720.maps.heightMap = (fun _ => 0) := rfl
    rw [hE, hhm]
    have hmv : dropletMove demoOps p720 720 720 (6/5) (fun _ => 0) d720 =
        ⟨7187/10, 721/2, 1, 0, 1, 1, 0, 0, true, none⟩ := by
      simp only [dropletMove, calcGradient_const]
      norm_num [calcViscosity, p720, pFlat, demoOps, demoSqrt, d720]
    rw [hmv]
    norm_num [outOfMargin]
  exact ⟨hout, (C4_theorem demoOps 720 720 p720 (erosionScale demoOps 720 720)
    e720.maps d720 hout).1⟩

/-- C4 counterexample: in the 720×720 scenario the droplet exits the margin
in sub-step 1 and dies at x = 718.7, yet the second sub-step of the same
`stepDroplets` call still runs and moves the dead droplet to x = 719.9 —
refuting "no further inner sub-steps are executed". -/
theorem C4_counterexample :
    (runSubsteps demoOps 720 720 p720 (erosionScale demoOps 720 720) 1 e720.maps
        d720).map (fun md => (md.2.alive, md.2.x, md.2.y)) =
      some (false, 7187/10, 721/2) ∧
    (stepDroplets demoOps e720 1 (1/2)).map
        (fun eb => (eb.1.droplets.map fun d => (d.alive, d.x, d.y), eb.2)) =
      some ([(false, 7199/10, 721/2)], false) ∧
    ¬((7187 : ℚ)/10 = 7199/10) := by
  have hE : erosionScale demoOps 720 720 = 6/5 := by
    norm_num [erosionScale, resolutionScale, demoOps, demoSqrt, demoPow]
  have hhm : e720.maps.heightMap = (fun _ => 0) := rfl
  have hmv1 : dropletMove demoOps p720 720 720 (6/5) (fun _ => 0) d720 =
      ⟨7187/10, 721/2, 1, 0, 1, 1, 0, 0, true, none⟩ := by
    simp only [dropletMove, calcGradient_const]
    norm_num [calcViscosity, p720, pFlat, demoOps, demoSqrt, d720]
  have hsub1 : subStep demoOps 720 720 p720 (6/5) e720.maps d720 =
      some (e720.maps, ⟨7187/10, 721/2, 1, 0, 1, 1, 0, 0, false, none⟩) := by
    simp only [subStep, hhm, hmv1]
    rw [if_pos (by norm_num [outOfMargin])]
  have hmv2 : dropletMove demoOps p720 720 720 (6/5) (fun _ => 0)
      ⟨7187/10, 721/2, 1, 0, 1, 1, 0, 0, false, none⟩ =
      ⟨7199/10, 721/2, 1, 0, 1, 1, 0, 0, false, none⟩ := by
    simp only [dropletMove, calcGradient_const]
    norm_num [calcViscosity, p720, pFlat, demoOps, demoSqrt]
  have hsub2 : subStep demoOps 720 720 p720 (6/5) e720.maps
      ⟨7187/10, 721/2, 1, 0, 1, 1, 0, 0, false, none⟩ =
      some (e720.maps, ⟨7199/10, 721/2, 1, 0, 1, 1, 0, 0, false, none⟩) := by
    simp only [subStep, hhm, hmv2]
    rw [if_pos (by norm_num [outOfMargin])]
  refine ⟨?_, ?_, by norm_num⟩
  · rw [hE]
    simp only [runSubsteps, hsub1, Option.bind, Option.map]
  · have hw : e720.width = 720 := rfl
    have hh : e720.height = 720 := rfl
    have hp : e720.params = p720 := rfl
    have hds : e720.droplets = [d720] := rfl
    have hn : numSubSteps demoOps 720 720 = 2 := by
      norm_num [numSubSteps, resolutionScale, demoOps, demoSqrt, jsForCount]
    simp only [stepDroplets, hw, hh, hp, hds, hE, hn]
    simp only [stepLoop]
    rw [if_neg (by norm_num), if_neg (by norm_num [d720])]
    simp only [runSubsteps, hsub1, hsub2, Option.bind, stepLoop, Option.map]
    rw [if_neg (by norm_num [p720, pFlat])]
    simp only [Option.bind, Option.map, List.any]
    norm_num

/-- Smoothstep stays within the unit interval on the unit interval. -/
theorem fade_mem (t : ℚ) (h0 : 0 ≤ t) (h1 : t ≤ 1) : 0 ≤ fade t ∧ fade t ≤ 1 := by
  constructor
  · have key : fade t = t * t * t * (6 * (t - 5/4) ^ 2 + 5/8) := by unfold fade; ring
    rw [key]
    have ht3 : 0 ≤ t * t * t := by positivity
    nlinarith [sq_nonneg (t - 5/4)]
  · have key : fade t - 1 = (t - 1) ^ 3 * (6 * t ^ 2 + 3 * t + 1) := by unfold fade; ring
    have h2 : (t - 1) ^ 3 ≤ 0 := Odd.pow_nonpos ⟨1, by norm_num⟩ (by linarith)
    have h3 : 0 ≤ 6 * t ^ 2 + 3 * t + 1 := by nlinarith [sq_nonneg t]
    nlinarith [mul_nonpos_of_nonpos_of_nonneg h2 h3]

/-- The corner gradient is bounded by 9 on unit offsets: the x-gradient is at
most `1 + 7 = 8`, and since the hash is reduced to 4 bits the y-gradient is
exactly 1. -/
theorem grad_abs_le (hash : ℕ) (x y : ℚ) (hx : |x| ≤ 1) (hy : |y| ≤ 1) :
    |grad hash x y| ≤ 9 := by
  simp only [grad]
  have hh : hash % 16 < 16 := Nat.mod_lt _ (by norm_num)
  have hdiv : hash % 16 / 16 = 0 := Nat.div_eq_of_lt hh
  have hmod : hash % 16 % 8 ≤ 7 := Nat.le_of_lt_succ (Nat.mod_lt _ (by norm_num))
  have hgx : |(1 + ((hash % 16 % 8 : ℕ) : ℚ))| ≤ 8 := by
    rw [abs_of_nonneg (by positivity)]
    have : ((hash % 16 % 8 : ℕ) : ℚ) ≤ 7 := by exact_mod_cast hmod
    linarith
  rw [hdiv]
  have habs : ∀ a b : ℚ, |a| ≤ 8 → |b| ≤ 1 → |a * x + b * y| ≤ 9 := by
    intro a b ha hb
    calc |a * x + b * y| ≤ |a * x| + |b * y| := abs_add _ _
      _ = |a| * |x| + |b| * |y| := by rw [abs_mul, abs_mul]
      _ ≤ 8 * 1 + 1 * 1 := by
          have h1 : |a| * |x| ≤ 8 * 1 :=
            mul_le_mul ha hx (abs_nonneg x) (by norm_num)
          have h2 : |b| * |y| ≤ 1 * 1 :=
            mul_le_mul hb hy (abs_nonneg y) (by norm_num)
          linarith
      _ = 9 := by norm_num
  split
  · refine habs _ _ ?_ ?_
    · rwa [abs_neg]
    · rw [abs_neg]
      simp
  · refine habs _ _ hgx ?_
    simp

/-- Linear interpolation with weight in `[0, 1]` preserves the bound 9. -/
theorem lerp_abs_le (t a b : ℚ) (ht0 : 0 ≤ t) (ht1 : t ≤ 1) (ha : |a| ≤ 9)
    (hb : |b| ≤ 9) : |lerp t a b| ≤ 9 := by
  unfold lerp
  have key : a + t * (b - a) = (1 - t) * a + t * b := by ring
  rw [key]
  calc |(1 - t) * a + t * b| ≤ |(1 - t) * a| + |t * b| := abs_add _ _
    _ = (1 - t) * |a| + t * |b| := by
        rw [abs_mul, abs_mul, abs_of_nonneg (by linarith), abs_of_nonneg ht0]
    _ ≤ (1 - t) * 9 + t * 9 := by
        have h1 : (1 - t) * |a| ≤ (1 - t) * 9 :=
          mul_le_mul_of_nonneg_left ha (by linarith)
        have h2 : t * |b| ≤ t * 9 := mul_le_mul_of_nonneg_left hb ht0
        linarith
    _ = 9 := by ring

/-- C7 counterexample: the noise sample at (14.5, 170.5) — a dyadic input, so
the floating-point evaluation in the source is exact — is 15/4 = 3.75, far
outside `[-1, 1]`. -/
theorem C7_counterexample :
    noise2D (29/2) (341/2) = 15/4 ∧ ¬(noise2D (29/2) (341/2) ≤ 1) := by
  have key : noise2D (29/2) (341/2) = 15/4 := by
    simp only [noise2D]
    norm_num [Int.toNat_ofNat, show Int.toNat 14 = 14 from rfl,
      show Int.toNat 170 = 170 from rfl, show permAt 14 = 7 from by decide,
      show permAt 15 = 225 from by decide, show permAt 177 = 22 from by decide,
      show permAt 178 = 39 from by decide, show permAt 395 = 126 from by decide,
      show permAt 396 = 255 from by decide, fade, lerp, grad]
  exact ⟨key, by rw [key]; norm_num⟩

/-- C7 (amended): the noise sample is a pure function of its inputs, but its
range bound is `[-9, 9]` (x-gradients reach 8, y-gradient is 1), not
`≈[-1, 1]`. -/
theorem C7_theorem : ∀ x y : ℚ, |noise2D x y| ≤ 9 := by
  intro x y
  have hx0 : (0 : ℚ) ≤ x - ⌊x⌋ := sub_nonneg.mpr (Int.floor_le x)
  have hx1 : x - ⌊x⌋ ≤ 1 := by
    have := Int.lt_floor_add_one x
    push_cast at this ⊢
    linarith
  have hy0 : (0 : ℚ) ≤ y - ⌊y⌋ := sub_nonneg.mpr (Int.floor_le y)
  have hy1 : y - ⌊y⌋ ≤ 1 := by
    have := Int.lt_floor_add_one y
    push_cast at this ⊢
    linarith
  have hxa : |x - ⌊x⌋| ≤ 1 := abs_le.mpr ⟨by linarith, hx1⟩
  have hxb : |x - ⌊x⌋ - 1| ≤ 1 := abs_le.mpr ⟨by linarith, by linarith⟩
  have hya : |y - ⌊y⌋| ≤ 1 := abs_le.mpr ⟨by linarith, hy1⟩
  have hyb : |y - ⌊y⌋ - 1| ≤ 1 := abs_le.mpr ⟨by linarith, by linarith⟩
  have hu := fade_mem (x - ⌊x⌋) hx0 hx1
  have hv := fade_mem (y - ⌊y⌋) hy0 hy1
  simp only [noise2D]
  exact lerp_abs_le _ _ _ hv.1 hv.2
    (lerp_abs_le _ _ _ hu.1 hu.2 (grad_abs_le _ _ _ hxa hya) (grad_abs_le _ _ _ hxb hya))
    (lerp_abs_le _ _ _ hu.1 hu.2 (grad_abs_le _ _ _ hxa hyb) (grad_abs_le _ _ _ hxb hyb))

/-- With talus formation and micro-details disabled, the erosion/deposition
phase never fails and only rewrites the height map through `_bilinearAdd`. -/
theorem erosionDeposition_flagsOff (ops : MathOps) (p : Params)
    (hta : p.useTalusFormation = false) (hmi : p.useMicroDetails = false)
    (w h : ℕ) (eScale : ℚ) (cellX cellY : ℤ) (offX offY newH cap sed x1 y1 : ℚ)
    (posIdx : ℕ) (m1 : Maps) :
    erosionDeposition ops p w h eScale cellX cellY offX offY newH cap sed x1 y1
        posIdx m1 =
      if cap < sed then
        some ({ m1 with heightMap := (bilinearAdd w h m1.heightMap cellX cellY offX offY
                  ((sed - cap) * p.depositionRate * ops.pow eScale (3/2))) },
              sed - (sed - cap) * p.depositionRate * ops.pow eScale (3/2))
      else if 0 < min ((cap - sed) * p.depositionRate * ops.pow eScale (3/2)) newH then
        some ({ m1 with heightMap := (bilinearAdd w h m1.heightMap cellX cellY offX offY
                  (-min ((cap - sed) * p.depositionRate * ops.pow eScale (3/2)) newH)) },
              sed + min ((cap - sed) * p.depositionRate * ops.pow eScale (3/2)) newH)
      else some (m1, sed) := by
  simp only [erosionDeposition, updateTalusFormation, microPhase, hta, hmi]
  norm_num [Option.bind]

/-- A droplet with zero velocity on locally flat terrain does not move: with
zero gradient and zero inertia the velocity update yields the zero vector,
whose length is `sqrt 0 = 0`, so normalisation is skipped and the position
advance adds zero. -/
theorem dropletMove_stationary (ops : MathOps) (p : Params) (w h : ℕ) (eScale : ℚ)
    (hm : HMap) (d : Droplet) (hin : p.inertia = 0) (hdx : d.dx = 0) (hdy : d.dy = 0)
    (hgrad : calcGradient w h hm d.x d.y = (0, 0)) (hs0 : ops.sqrt 0 = 0) :
    dropletMove ops p w h eScale hm d = { d with dx := 0, dy := 0 } := by
  simp only [dropletMove, hgrad, hin, hdx, hdy]
  norm_num [hs0]

/-- C2 counterexample: on the 4×4 all-ones field with one droplet spawned at
(2, 2) and an admissible parameter set (`pFlat`), one `stepDroplets(1)` call
leaves the droplet ALIVE at (2, 2) with speed 1 — the gradient is zero and
`Δh = 0`, but the speed update gives `√(speed²)·(1−friction)`, not 0, so the
kill floor 0.01 is never reached.  This refutes "the droplet's alive flag is
false".  (`demoOps` agrees with the real primitives at every point this
conclusion depends on; the generic `C2_theorem` below makes that precise.) -/
theorem C2_counterexample :
    (stepDroplets demoOps e4 1 (1/2)).map
        (fun eb => (eb.1.droplets.map fun d => (d.alive, d.x, d.y, d.speed), eb.2)) =
      some ([(true, 2, 2, 1)], true) := by
  have hrs : resolutionScale demoOps 4 4 = 1/125 := by
    norm_num [resolutionScale, demoOps, demoSqrt]
  have hn : numSubSteps demoOps 4 4 = 1 := by
    unfold numSubSteps; rw [hrs]; norm_num [jsForCount]
  have hc1 : ¬ (1/1000 * demoOps.pow (erosionScale demoOps 4 4) (3/2) < 0) := by
    norm_num [erosionScale, resolutionScale, demoOps, demoSqrt, demoPow]
  have hc2 : 0 < 1/1000 * demoOps.pow (erosionScale demoOps 4 4) (3/2) *
      demoOps.pow (erosionScale demoOps 4 4) (3/2) := by
    norm_num [erosionScale, resolutionScale, demoOps, demoSqrt, demoPow]
  norm_num [stepDroplets, stepLoop, runSubsteps, subStep, dropletMove_stationary,
    calcGradient_const, bilinearInterp_const, outOfMargin, calcViscosity, baseCapacity,
    sizeAdjust, flowPhase, erosionDeposition_flagsOff, e4, dC2, createDroplet, mkEngine,
    pFlat, hn, show demoOps.sqrt 0 = 0 from by norm_num [demoOps, demoSqrt],
    show demoOps.sqrt 1 = 1 from by norm_num [demoOps, demoSqrt],
    toIndex, Int.toNat_ofNat, Option.bind, List.any, hc1, hc2]

/-- C2 (amended): in the flat-field scenario, for EVERY math-primitive
instance that agrees with `Math.sqrt` at the three evaluated perfect squares
and whose `pow(erosionScale, 1.5)` is positive (true of the real one), the
single `stepDroplets(1)` call returns alive=true, the droplet stays at
(2, 2) with speed `initialSpeed·(1−friction) = 1 ≥ 0.01`, and — because the
sediment capacity has the floor `max(−Δh, 0.001) = 0.001` — a positive
amount is eroded, so the engine's height field strictly decreases at cell
(2, 2): the returned field is not identical to the input. -/
theorem C2_theorem : ∀ ops : MathOps,
    ops.sqrt (16/250000) = 1/125 → ops.sqrt 0 = 0 → ops.sqrt 1 = 1 →
    0 < ops.pow (erosionScale ops 4 4) (3/2) →
    ∃ e', stepDroplets ops e4 1 (1/2) = some (e', true) ∧
      e'.droplets.map (fun d => (d.alive, d.x, d.y, d.speed)) = [(true, 2, 2, 1)] ∧
      e'.heightMap (toIndex 4 2 2) < 1 := by
  intro ops hs16 hs0 hs1 hP
  have hrs : resolutionScale ops 4 4 = 1/125 := by
    unfold resolutionScale
    rw [show (((4 * 4 : ℕ) : ℚ) / (500 * 500)) = 16/250000 by norm_num]
    exact hs16
  have hn : numSubSteps ops 4 4 = 1 := by
    unfold numSubSteps
    rw [hrs]
    norm_num [jsForCount]
  have hc1 : ¬ (1/1000 * ops.pow (erosionScale ops 4 4) (3/2) < 0) := by nlinarith [hP]
  have hc2 : 0 < 1/1000 * ops.pow (erosionScale ops 4 4) (3/2) *
      ops.pow (erosionScale ops 4 4) (3/2) := by nlinarith [mul_pos hP hP]
  norm_num [stepDroplets, stepLoop, runSubsteps, subStep, dropletMove_stationary,
    calcGradient_const, bilinearInterp_const, outOfMargin, calcViscosity, baseCapacity,
    sizeAdjust, flowPhase, erosionDeposition_flagsOff, e4, dC2, createDroplet, mkEngine,
    pFlat, hn, hs0, hs1, toIndex, Int.toNat_ofNat, Option.bind, List.any, hc1, hc2]
  rw [show Int.toNat 10 = 10 from rfl]
  set q : ℚ := 1/1000 * ops.pow (erosionScale ops 4 4) (3/2) *
      ops.pow (erosionScale ops 4 4) (3/2) ⊓ 1 with hq
  have hm1 : 0 < q := by rw [hq]; exact lt_min hc2 one_pos
  norm_num [Engine.heightMap, bilinearAdd, updF, toIndex, show Int.toNat 10 = 10 from rfl,
    show Int.toNat 11 = 11 from rfl, show Int.toNat 14 = 14 from rfl,
    show Int.toNat 15 = 15 from rfl]
  exact hm1

/-- C2 witness: the amended theorem applied to the concrete table instance
`demoOps`, which satisfies all four hypotheses. -/
theorem C2_witness :
    ∃ e', stepDroplets demoOps e4 1 (1/2) = some (e', true) ∧
      e'.droplets.map (fun d => (d.alive, d.x, d.y, d.speed)) = [(true, 2, 2, 1)] ∧
      e'.heightMap (toIndex 4 2 2) < 1 :=
  C2_theorem demoOps (by norm_num [demoOps, demoSqrt]) (by norm_num [demoOps, demoSqrt])
    (by norm_num [demoOps, demoSqrt])
    (by norm_num [erosionScale, resolutionScale, demoOps, demoSqrt, demoPow])
